import Mathlib

/-!
Verification of the QR label sheet generator (`src/QR_coding.py`).

The script reads (label, description) records from a CSV file, renders a QR
patch and a caption patch for each record, and composites them onto white
grayscale sheet canvases arranged as a `rows × cols` grid of cells.

Shallow embedding conventions:
* grayscale rasters are `Img`: a height, a width and a total pixel function
  `Int → Int → Nat` (row index first, matching `numpy` `arr[y, x]`);
  pixel values are `Nat`s, with the `uint8` range `≤ 255` carried as a
  hypothesis where it matters;
* the external collaborators (the `qrcode` encoder together with the
  bool/RGB normalization and the `cv2` resize of lines 49-75, and the PIL
  text drawing inside `create_text_image`) are parameters of the embedding:
  `qrR : String → Nat → Except String Img` (it can raise, e.g.
  `qrcode.exceptions.DataOverflowError` for unencodable text) and
  `draw : String → String → Nat → Int → Int → Nat` (PIL drawing never
  raises out of `create_text_image`, whose own code catches everything);
* Python `//` on possibly-negative ints is floor division; for the positive
  divisor 2 this agrees with Lean's Euclidean `/` on `Int`, which is used
  directly;
* `numpy` slice assignment `sheet[y:y+h, x:x+w] = patch` with the guard of
  lines 288/293 satisfied either writes exactly that rectangle (when
  `y, x ≥ 0`) or, for a negative start index, wraps around and produces a
  slice whose shape no longer matches the patch, raising `ValueError`,
  which the `except` of line 295 catches, abandoning the rest of the `try`
  block.  `placeOne` returns the written sheet together with that
  "raised" flag.
-/

namespace QRCoding

/-- Img is a single-channel (grayscale) raster: height, width, and a pixel
function indexed as `pix y x` like a 2-d `numpy` array. -/
structure Img where
  h : Nat
  w : Nat
  pix : Int → Int → Nat

/-- Args mirrors the command line configuration of `parse_args`
(`src/QR_coding.py` lines 19-40) that `generate_label_sheets` reads:
cell pixel dimensions, grid shape and QR patch side length. -/
structure Args where
  label_width : Nat
  label_height : Nat
  cols : Nat
  rows : Nat
  qr_size : Nat

/-- blankImg models `np.ones((size, size), dtype=np.uint8) * 255`
(line 47): an all-white square patch. -/
def blankImg (size : Nat) : Img :=
  ⟨size, size, fun _ _ => 255⟩

/-- sumPix is the total of the pixel values of an image over its
`h × w` domain; `np.mean(a) < 127` is `sumPix a < 127 * (a.h * a.w)`. -/
def sumPix (a : Img) : Nat :=
  ∑ y ∈ Finset.range a.h, ∑ x ∈ Finset.range a.w, a.pix y x

/-- invertImg models `255 - img_array` (line 81) on `uint8` data. -/
def invertImg (a : Img) : Img :=
  ⟨a.h, a.w, fun y x => 255 - a.pix y x⟩

/-- ensureLight models lines 77-81: if the mean pixel value is below 127
the raster is mostly dark, so invert it to get dark modules on a light
background. -/
def ensureLight (a : Img) : Img :=
  if sumPix a < 127 * (a.h * a.w) then invertImg a else a

/-- create_qr_code models lines 43-83.  Empty text returns a blank white
patch (lines 45-47).  Otherwise the external encode/normalize/resize
stages (`qrR`) produce a raster — or raise, which propagates — and the
in-repo normalization `ensureLight` is applied to it. -/
def create_qr_code (qrR : String → Nat → Except String Img) (text : String) (size : Nat) :
    Except String Img :=
  if text = "" then .ok (blankImg size)
  else (qrR text size).map ensureLight

/-- create_text_image models lines 86-216: a `size × size` white PIL
canvas `Image.new('L', (size, size), color=255)` drawn on by the external
font/drawing code (`draw`); the function catches every drawing failure
internally, so it always returns a `size × size` raster. -/
def create_text_image (draw : String → String → Nat → Int → Int → Nat)
    (label description : String) (size : Nat) : Img :=
  ⟨size, size, draw label description size⟩

/-- margin models line 266, `(args.label_height - args.qr_size) // 2`
(Python floor division on ints, possibly negative; for the positive
divisor 2 Lean's Euclidean `Int` division coincides with it). -/
def margin (args : Args) : Int :=
  ((args.label_height : Int) - (args.qr_size : Int)) / 2

/-- blitWrite is the unguarded `numpy` rectangle assignment
`sheet[y:y+patch.h, x:x+patch.w] = patch` for in-range nonnegative
origins. -/
def blitWrite (sheet patch : Img) (x y : Int) : Img :=
  { sheet with pix := fun yy xx =>
      if y ≤ yy ∧ yy < y + (patch.h : Int) ∧ x ≤ xx ∧ xx < x + (patch.w : Int) then
        patch.pix (yy - y) (xx - x)
      else sheet.pix yy xx }

/-- placeOne models one guarded slice assignment of lines 287-289 (and
292-294): the `if` guard checks the patch against `qr_size` and the lower
right corner against the canvas, and skips the write when it fails.  When
the guard passes but an origin is negative, `numpy` wraps the slice,
the shapes mismatch and the assignment raises `ValueError`; the returned
`Bool` records that raise (to be caught by the `except` of line 295). -/
def placeOne (sheet patch : Img) (x y : Int) (qr_size : Nat) : Img × Bool :=
  if patch.h ≤ qr_size ∧ patch.w ≤ qr_size ∧
      y + (patch.h : Int) ≤ (sheet.h : Int) ∧ x + (patch.w : Int) ≤ (sheet.w : Int) then
    if 0 ≤ y ∧ 0 ≤ x then (blitWrite sheet patch x y, false)
    else (sheet, true)
  else (sheet, false)

/-- placeImages is the `try` block of lines 285-296: place the QR patch,
then the text patch; an exception raised by the first assignment aborts
the block (skipping the text patch) and is caught by the `except`. -/
def placeImages (sheet qr_img text_img : Img) (qr_x qr_y text_x text_y : Int)
    (qr_size : Nat) : Img :=
  let r1 := placeOne sheet qr_img qr_x qr_y qr_size
  if r1.2 then r1.1 else (placeOne r1.1 text_img text_x text_y qr_size).1

/-- fillCell is the body of the inner grid loop, lines 258-298, for one
cell `(row, col)`: if all records are consumed the cell is left blank and
the counter unchanged (the `break`); otherwise the record at
`label_count` is fetched, both patches are rendered — `create_qr_code` is
outside the `try`, so a rendering failure propagates — and placed.  The
optional third component records the data access
`data[label_count]` at this cell, for stating placement properties. -/
def fillCell (qrR : String → Nat → Except String Img)
    (draw : String → String → Nat → Int → Int → Nat)
    (args : Args) (data : List (String × String))
    (sheet : Img) (label_count row col : Nat) :
    Except String (Img × Nat × Option (Nat × Nat × Nat)) :=
  if label_count < data.length then
    let ld := data.getD label_count ("", "")
    let x_offset : Int := (col : Int) * (args.label_width : Int)
    let y_offset : Int := (row : Int) * (args.label_height : Int)
    match create_qr_code qrR ld.1 args.qr_size with
    | .error e => .error e
    | .ok qr_img =>
      let text_img := create_text_image draw ld.1 ld.2 args.qr_size
      let qr_x := x_offset + margin args
      let qr_y := y_offset + margin args
      let text_x := x_offset + ((args.label_width / 2 : Nat) : Int)
      let text_y := y_offset + margin args
      .ok (placeImages sheet qr_img text_img qr_x qr_y text_x text_y args.qr_size,
        label_count + 1, some (label_count, row, col))
  else
    .ok (sheet, label_count, none)

/-- cellIndices is the row-major traversal order of the two nested loops
of lines 256-257: `(row, col)` for `row` in `range(rows)`, `col` in
`range(cols)`. -/
def cellIndices (rows cols : Nat) : List (Nat × Nat) :=
  (List.range rows).flatMap fun r => (List.range cols).map fun c => (r, c)

/-- processCells runs `fillCell` over a list of grid cells in order,
threading the sheet and the record counter, as the nested loops of lines
256-298 do; an uncaught exception from a cell aborts the whole
traversal.  The collected list is the trace of `(record index, row,
col)` data accesses. -/
def processCells (qrR : String → Nat → Except String Img)
    (draw : String → String → Nat → Int → Int → Nat)
    (args : Args) (data : List (String × String)) :
    Img → Nat → List (Nat × Nat) → Except String (Img × Nat × List (Nat × Nat × Nat))
  | sheet, label_count, [] => .ok (sheet, label_count, [])
  | sheet, label_count, rc :: rest =>
    match fillCell qrR draw args data sheet label_count rc.1 rc.2 with
    | .error e => .error e
    | .ok (sheet1, lc1, pl) =>
      match processCells qrR draw args data sheet1 lc1 rest with
      | .error e => .error e
      | .ok (sheet2, lc2, pls) => .ok (sheet2, lc2, pl.toList ++ pls)

/-- blankSheet models line 253,
`np.ones((sheet_height, sheet_width), dtype=np.uint8) * 255` with
`sheet_width = cols * label_width` and `sheet_height = rows * label_height`
(lines 247-248): a white canvas. -/
def blankSheet (args : Args) : Img :=
  ⟨args.rows * args.label_height, args.cols * args.label_width, fun _ _ => 255⟩

/-- GenOut is the observable outcome of `generate_label_sheets`: the
sheets saved to disk (a sheet is saved at line 302, at the end of its
loop iteration, so sheets completed before an uncaught exception remain
saved), the trace of record-to-cell assignments
`(record index, sheet index, row, col)` (sheet index 0-based; the file
name of line 301 uses `sheet_num = index + 1`), and the uncaught
exception, if any, that aborted the run. -/
structure GenOut where
  sheets : List Img
  placements : List (Nat × Nat × Nat × Nat)
  error : Option String

/-- sheetsLoop is the outer loop of lines 251-303 with `n` iterations
remaining, current 0-based sheet index `s` and record counter
`label_count`: each iteration composites one sheet starting from a fresh
white canvas and saves it; an uncaught exception stops the loop. -/
def sheetsLoop (qrR : String → Nat → Except String Img)
    (draw : String → String → Nat → Int → Int → Nat)
    (args : Args) (data : List (String × String)) :
    Nat → Nat → Nat → GenOut
  | 0, _, _ => ⟨[], [], none⟩
  | n + 1, s, label_count =>
    match processCells qrR draw args data (blankSheet args) label_count
        (cellIndices args.rows args.cols) with
    | .error e => ⟨[], [], some e⟩
    | .ok (sheet, lc1, pls) =>
      let rest := sheetsLoop qrR draw args data n (s + 1) lc1
      ⟨sheet :: rest.sheets,
        (pls.map fun p => (p.1, s, p.2.1, p.2.2)) ++ rest.placements,
        rest.error⟩

/-- num_sheets models line 244,
`(len(data) + labels_per_sheet - 1) // labels_per_sheet`. -/
def num_sheets (n per : Nat) : Nat :=
  (n + per - 1) / per

/-- generate_label_sheets models lines 241-303.  With an empty grid
(`rows * cols = 0`) line 244 raises `ZeroDivisionError`; otherwise the
computed number of sheets is composited. -/
def generate_label_sheets (qrR : String → Nat → Except String Img)
    (draw : String → String → Nat → Int → Int → Nat)
    (data : List (String × String)) (args : Args) : GenOut :=
  let per := args.rows * args.cols
  if per = 0 then ⟨[], [], some "ZeroDivisionError"⟩
  else sheetsLoop qrR draw args data (num_sheets data.length per) 0 0

/-- CSVTable is the view `csv.DictReader` gives of a readable CSV source:
the header field names and each data row as an association list from
field name to value. -/
structure CSVTable where
  fieldnames : List String
  rows : List (List (String × String))

/-- rowGet models `row.get(col, "")` on a `DictReader` row dict
(lines 231-232). -/
def rowGet (row : List (String × String)) (c : String) : String :=
  match row.find? fun p => p.1 == c with
  | some p => p.2
  | none => ""

/-- read_csv_data models lines 219-238.  The source is either unreadable
(`.error`, e.g. `FileNotFoundError` from `open`) or a parsed table.  The
`except` of line 234 catches every failure — including the
`ValueError` deliberately raised at line 227 when the label column is
missing from the header — prints a diagnostic and returns the empty
list.  The second component is the printed log. -/
def read_csv_data (src : Except String CSVTable) (label_col desc_col : String) :
    List (String × String) × List String :=
  match src with
  | .error e => ([], ["Error reading CSV file: " ++ e])
  | .ok t =>
    if label_col ∈ t.fieldnames then
      (t.rows.map fun row => (rowGet row label_col, rowGet row desc_col), [])
    else
      ([], ["Error reading CSV file: CSV file missing required column: " ++ label_col])

/-- MainOut is the observable outcome of `main` (lines 306-321): the
sheets saved, the printed log, and whether the process terminated with a
failure signal (`main` itself always returns `None`, i.e. exit status 0;
the only failing termination is an exception propagating uncaught out of
`generate_label_sheets`). -/
structure MainOut where
  sheets : List Img
  log : List String
  exitFailure : Bool

/-- main models lines 306-321: read the CSV; on an empty record list —
whether from a read error, a missing column, or a genuinely empty table —
print a diagnostic and return normally (exit status 0, lines 315-317);
otherwise generate the sheets, which crashes the process only if an
exception escapes `generate_label_sheets`. -/
def main (qrR : String → Nat → Except String Img)
    (draw : String → String → Nat → Int → Int → Nat)
    (src : Except String CSVTable) (args : Args) (label_col desc_col : String) :
    MainOut :=
  let rd := read_csv_data src label_col desc_col
  if rd.1 = [] then
    ⟨[], rd.2 ++ ["No data found or error in CSV file. Exiting."], false⟩
  else
    let g := generate_label_sheets qrR draw rd.1 args
    ⟨g.sheets, rd.2, g.error.isSome⟩

/-- Rect is an axis-aligned pixel rectangle: origin `(x, y)` and extent
`w × h`, used to state the layout geometry of lines 263-282. -/
structure Rect where
  x : Int
  y : Int
  w : Nat
  h : Nat

/-- Rect.contains says pixel `p = (px, py)` lies in the rectangle. -/
def Rect.contains (r : Rect) (p : Int × Int) : Prop :=
  r.x ≤ p.1 ∧ p.1 < r.x + (r.w : Int) ∧ r.y ≤ p.2 ∧ p.2 < r.y + (r.h : Int)

/-- RectDisjoint says the two rectangles share no pixel. -/
def RectDisjoint (a b : Rect) : Prop :=
  ∀ p : Int × Int, a.contains p → b.contains p → False

/-- RectInside says every pixel of `a` lies in `b`. -/
def RectInside (a b : Rect) : Prop :=
  ∀ p : Int × Int, a.contains p → b.contains p

/-- qrRect is the target rectangle of the QR patch of cell `(row, col)`:
origin `(x_offset + margin, y_offset + margin)` (lines 276-277), extent
`qr_size × qr_size` (the patch produced by `create_qr_code`). -/
def qrRect (args : Args) (row col : Nat) : Rect :=
  ⟨(col : Int) * (args.label_width : Int) + margin args,
    (row : Int) * (args.label_height : Int) + margin args,
    args.qr_size, args.qr_size⟩

/-- textRect is the target rectangle of the caption patch of cell
`(row, col)`: origin `(x_offset + label_width // 2, y_offset + margin)`
(lines 281-282), extent `qr_size × qr_size` (the patch produced by
`create_text_image` with `size = args.qr_size`, line 272). -/
def textRect (args : Args) (row col : Nat) : Rect :=
  ⟨(col : Int) * (args.label_width : Int) + ((args.label_width / 2 : Nat) : Int),
    (row : Int) * (args.label_height : Int) + margin args,
    args.qr_size, args.qr_size⟩

/-- cellRect is the bounds of grid cell `(row, col)`:
origin `(col * label_width, row * label_height)`, extent
`label_width × label_height`. -/
def cellRect (args : Args) (row col : Nat) : Rect :=
  ⟨(col : Int) * (args.label_width : Int), (row : Int) * (args.label_height : Int),
    args.label_width, args.label_height⟩

/-- isOkB decides whether an `Except` is a success. -/
def isOkB {ε α : Type} : Except ε α → Bool
  | .ok _ => true
  | .error _ => false

/-- rendersOk says the external QR encoder succeeds on every record of
the input (no `DataOverflowError` etc. for any label text). -/
def rendersOk (qrR : String → Nat → Except String Img) (args : Args)
    (data : List (String × String)) : Prop :=
  ∀ ld ∈ data, isOkB (create_qr_code qrR ld.1 args.qr_size) = true

/-- outsideWhite says every pixel outside the image's own `h × w` canvas
rectangle has the background value 255 (i.e. was never written). -/
def outsideWhite (img : Img) : Prop :=
  ∀ y x : Int,
    y < 0 ∨ (img.h : Int) ≤ y ∨ x < 0 ∨ (img.w : Int) ≤ x → img.pix y x = 255

/-- rowMajorPlacement is the specification-side description of where the
record at global 0-based index `i` lands: sheet `i div per`, grid row
`(i mod per) div cols`, grid column `(i mod per) mod cols`, where
`per = rows * cols`; stated as `(record index, sheet, row, col)` to match
the trace collected by `generate_label_sheets`. -/
def rowMajorPlacement (per cols i : Nat) : Nat × Nat × Nat × Nat :=
  (i, i / per, i % per / cols, i % per % cols)

/-- allOkRender is a concrete external QR stage that always succeeds,
used to instantiate theorems at concrete inputs. -/
def allOkRender : String → Nat → Except String Img :=
  fun _ _ => .ok (blankImg 1)

/-- darkRender is a concrete external QR stage producing an all-dark
2×2 raster (mean 0), exercising the inversion branch of `ensureLight`. -/
def darkRender : String → Nat → Except String Img :=
  fun _ _ => .ok ⟨2, 2, fun _ _ => 0⟩

/-- overflowRender is a concrete external QR stage that raises
`DataOverflowError` on one particular text and succeeds on all others. -/
def overflowRender : String → Nat → Except String Img :=
  fun t _ =>
    if t = "BAD" then .error "qrcode.exceptions.DataOverflowError"
    else .ok (blankImg 1)

/-- whiteDraw is a concrete external text-drawing stage that leaves the
caption canvas blank. -/
def whiteDraw : String → String → Nat → Int → Int → Nat :=
  fun _ _ _ _ _ => 255

/-- smallArgs is a concrete 2×2-grid layout with 2×2-pixel cells and
1-pixel QR patches, small enough for kernel evaluation. -/
def smallArgs : Args :=
  ⟨2, 2, 2, 2, 1⟩

/-- tinyArgs is a concrete 1×1-grid layout with 1×1-pixel cells. -/
def tinyArgs : Args :=
  ⟨1, 1, 1, 1, 1⟩

/-- squareCellArgs is a layout with square 600×600 cells and a 500-pixel
QR patch; it satisfies the spec's stated invariants
(`qr_size ≤ label_height`, `qr_size ≤ label_width`) yet its QR and
caption rectangles overlap. -/
def squareCellArgs : Args :=
  ⟨600, 600, 1, 1, 500⟩

/-- defaultArgs is the script's default configuration
(lines 26-35): 1400×600 cells, 4 columns, 12 rows, 500-pixel QR. -/
def defaultArgs : Args :=
  ⟨1400, 600, 4, 12, 500⟩

/-- fiveRecords is a concrete input of five records. -/
def fiveRecords : List (String × String) :=
  [("a", ""), ("b", "x"), ("c", ""), ("d", ""), ("e", "")]

/-- twoRecordsFirstBad is a concrete input whose first record's text the
`overflowRender` encoder cannot encode. -/
def twoRecordsFirstBad : List (String × String) :=
  [("BAD", ""), ("OK", "")]

/-- missingFileSrc is a concrete unreadable CSV source, as `open` raising
`FileNotFoundError`. -/
def missingFileSrc : Except String CSVTable :=
  .error "[Errno 2] No such file or directory: 'labels.csv'"

/-! Helper lemmas about the compositing primitives. -/

lemma blitWrite_h (sheet patch : Img) (x y : Int) :
    (blitWrite sheet patch x y).h = sheet.h := rfl

lemma blitWrite_w (sheet patch : Img) (x y : Int) :
    (blitWrite sheet patch x y).w = sheet.w := rfl

lemma placeOne_fst_h (sheet patch : Img) (x y : Int) (q : Nat) :
    ((placeOne sheet patch x y q).1).h = sheet.h := by
  unfold placeOne
  split
  · split <;> rfl
  · rfl

lemma placeOne_fst_w (sheet patch : Img) (x y : Int) (q : Nat) :
    ((placeOne sheet patch x y q).1).w = sheet.w := by
  unfold placeOne
  split
  · split <;> rfl
  · rfl

lemma placeOne_outside (sheet patch : Img) (x y : Int) (q : Nat)
    (hs : outsideWhite sheet) : outsideWhite ((placeOne sheet patch x y q).1) := by
  unfold placeOne
  split
  · rename_i hg
    split
    · rename_i hx
      intro yy xx hout
      simp only [blitWrite] at hout ⊢
      rw [if_neg]
      · exact hs yy xx hout
      · rintro ⟨c1, c2, c3, c4⟩
        obtain ⟨g1, g2, g3, g4⟩ := hg
        obtain ⟨x1, x2⟩ := hx
        rcases hout with h | h | h | h <;> omega
    · exact hs
  · exact hs

lemma placeImages_h (sheet qr_img text_img : Img) (qr_x qr_y text_x text_y : Int)
    (q : Nat) :
    (placeImages sheet qr_img text_img qr_x qr_y text_x text_y q).h = sheet.h := by
  simp only [placeImages]
  split
  · exact placeOne_fst_h ..
  · rw [placeOne_fst_h, placeOne_fst_h]

lemma placeImages_w (sheet qr_img text_img : Img) (qr_x qr_y text_x text_y : Int)
    (q : Nat) :
    (placeImages sheet qr_img text_img qr_x qr_y text_x text_y q).w = sheet.w := by
  simp only [placeImages]
  split
  · exact placeOne_fst_w ..
  · rw [placeOne_fst_w, placeOne_fst_w]

lemma placeImages_outside (sheet qr_img text_img : Img)
    (qr_x qr_y text_x text_y : Int) (q : Nat) (hs : outsideWhite sheet) :
    outsideWhite (placeImages sheet qr_img text_img qr_x qr_y text_x text_y q) := by
  simp only [placeImages]
  split
  · exact placeOne_outside _ _ _ _ _ hs
  · exact placeOne_outside _ _ _ _ _ (placeOne_outside _ _ _ _ _ hs)

/-! Reduction equations for `fillCell`. -/

lemma fillCell_of_exhausted (qrR : String → Nat → Except String Img)
    (draw : String → String → Nat → Int → Int → Nat)
    (args : Args) (data : List (String × String)) (sheet : Img)
    (label_count row col : Nat) (h : ¬ label_count < data.length) :
    fillCell qrR draw args data sheet label_count row col =
      .ok (sheet, label_count, none) := by
  unfold fillCell
  rw [if_neg h]

lemma fillCell_of_error (qrR : String → Nat → Except String Img)
    (draw : String → String → Nat → Int → Int → Nat)
    (args : Args) (data : List (String × String)) (sheet : Img)
    (label_count row col : Nat) (e : String) (h : label_count < data.length)
    (himg : create_qr_code qrR (data.getD label_count ("", "")).1 args.qr_size =
      .error e) :
    fillCell qrR draw args data sheet label_count row col = .error e := by
  unfold fillCell
  rw [if_pos h]
  simp only [himg]

lemma fillCell_of_ok (qrR : String → Nat → Except String Img)
    (draw : String → String → Nat → Int → Int → Nat)
    (args : Args) (data : List (String × String)) (sheet : Img)
    (label_count row col : Nat) (qr_img : Img) (h : label_count < data.length)
    (himg : create_qr_code qrR (data.getD label_count ("", "")).1 args.qr_size =
      .ok qr_img) :
    fillCell qrR draw args data sheet label_count row col =
      .ok (placeImages sheet qr_img
            (create_text_image draw (data.getD label_count ("", "")).1
              (data.getD label_count ("", "")).2 args.qr_size)
            ((col : Int) * (args.label_width : Int) + margin args)
            ((row : Int) * (args.label_height : Int) + margin args)
            ((col : Int) * (args.label_width : Int) + ((args.label_width / 2 : Nat) : Int))
            ((row : Int) * (args.label_height : Int) + margin args)
            args.qr_size,
          label_count + 1, some (label_count, row, col)) := by
  unfold fillCell
  rw [if_pos h]
  simp only [himg]

lemma fillCell_ok_inv (qrR : String → Nat → Except String Img)
    (draw : String → String → Nat → Int → Int → Nat)
    (args : Args) (data : List (String × String)) (sheet : Img)
    (label_count row col : Nat) (sheet1 : Img) (lc1 : Nat)
    (pl : Option (Nat × Nat × Nat))
    (h : fillCell qrR draw args data sheet label_count row col =
      .ok (sheet1, lc1, pl)) :
    sheet1.h = sheet.h ∧ sheet1.w = sheet.w ∧
      (outsideWhite sheet → outsideWhite sheet1) := by
  by_cases hlt : label_count < data.length
  · cases himg : create_qr_code qrR (data.getD label_count ("", "")).1 args.qr_size with
    | error e =>
      rw [fillCell_of_error qrR draw args data sheet label_count row col e hlt himg] at h
      cases h
    | ok qr_img =>
      rw [fillCell_of_ok qrR draw args data sheet label_count row col qr_img hlt himg] at h
      obtain ⟨h1, -, -⟩ := by simpa using h
      subst h1
      exact ⟨placeImages_h .., placeImages_w .., fun hs => placeImages_outside _ _ _ _ _ _ _ _ hs⟩
  · rw [fillCell_of_exhausted qrR draw args data sheet label_count row col hlt] at h
    obtain ⟨h1, -, -⟩ := by simpa using h
    subst h1
    exact ⟨rfl, rfl, fun hs => hs⟩

lemma processCells_ok_inv (qrR : String → Nat → Except String Img)
    (draw : String → String → Nat → Int → Int → Nat)
    (args : Args) (data : List (String × String)) :
    ∀ (cells : List (Nat × Nat)) (sheet : Img) (label_count : Nat)
      (sheet2 : Img) (lc2 : Nat) (pls : List (Nat × Nat × Nat)),
      processCells qrR draw args data sheet label_count cells = .ok (sheet2, lc2, pls) →
      sheet2.h = sheet.h ∧ sheet2.w = sheet.w ∧
        (outsideWhite sheet → outsideWhite sheet2)
  | [], sheet, label_count, sheet2, lc2, pls, h => by
    simp only [processCells] at h
    obtain ⟨h1, -, -⟩ := by simpa using h
    subst h1
    exact ⟨rfl, rfl, fun hs => hs⟩
  | rc :: rest, sheet, label_count, sheet2, lc2, pls, h => by
    simp only [processCells] at h
    cases hf : fillCell qrR draw args data sheet label_count rc.1 rc.2 with
    | error e => simp [hf] at h
    | ok out1 =>
      simp only [hf] at h
      obtain ⟨sheet1, lc1, pl⟩ := out1
      cases hp : processCells qrR draw args data sheet1 lc1 rest with
      | error e => simp [hp] at h
      | ok out2 =>
        simp only [hp] at h
        obtain ⟨sheetB, lcB, plsB⟩ := out2
        obtain ⟨h1, -, -⟩ := by simpa using h
        subst h1
        obtain ⟨d1, d2, d3⟩ := fillCell_ok_inv qrR draw args data sheet label_count
          rc.1 rc.2 sheet1 lc1 pl hf
        obtain ⟨e1, e2, e3⟩ := processCells_ok_inv qrR draw args data rest sheet1 lc1
          sheetB lcB plsB hp
        exact ⟨e1.trans d1, e2.trans d2, fun hs => e3 (d3 hs)⟩

/-! Lemmas about the mean-based polarity normalization of
`create_qr_code`. -/

lemma ensureLight_h (a : Img) : (ensureLight a).h = a.h := by
  unfold ensureLight
  split <;> rfl

lemma ensureLight_w (a : Img) : (ensureLight a).w = a.w := by
  unfold ensureLight
  split <;> rfl

lemma sumPix_invert (a : Img)
    (hb : ∀ y x : Nat, y < a.h → x < a.w → a.pix y x ≤ 255) :
    sumPix (invertImg a) + sumPix a = 255 * (a.h * a.w) := by
  unfold sumPix invertImg
  simp only
  rw [← Finset.sum_add_distrib]
  have hrow : ∀ y ∈ Finset.range a.h,
      ((∑ x ∈ Finset.range a.w, (255 - a.pix y x)) +
        ∑ x ∈ Finset.range a.w, a.pix y x) = 255 * a.w := by
    intro y hy
    rw [← Finset.sum_add_distrib]
    have : ∀ x ∈ Finset.range a.w, (255 - a.pix y x) + a.pix y x = 255 := by
      intro x hx
      exact Nat.sub_add_cancel
        (hb y x (Finset.mem_range.mp hy) (Finset.mem_range.mp hx))
    rw [Finset.sum_congr rfl this, Finset.sum_const, Finset.card_range,
      smul_eq_mul, Nat.mul_comm]
  rw [Finset.sum_congr rfl hrow, Finset.sum_const, Finset.card_range, smul_eq_mul]
  ring

lemma ensureLight_mean (a : Img)
    (hb : ∀ y x : Nat, y < a.h → x < a.w → a.pix y x ≤ 255) :
    127 * (a.h * a.w) ≤ sumPix (ensureLight a) := by
  unfold ensureLight
  split
  · rename_i hlt
    have hinv := sumPix_invert a hb
    omega
  · omega

/-- C6: for every non-empty text, whenever the external encode-and-resize
stage yields a `size × size` `uint8` raster, `create_qr_code` returns a
`size × size` single-channel patch whose mean pixel value is at least the
code's light-side threshold 127 — `ensureLight` inverts the raster when
the mean is below 127, guaranteeing dark modules on a light background. -/
theorem c6_qr_light_mean (qrR : String → Nat → Except String Img)
    (text : String) (size : Nat) (raw : Img)
    (hne : text ≠ "") (hok : qrR text size = .ok raw)
    (hh : raw.h = size) (hw : raw.w = size)
    (hb : ∀ y x : Nat, y < raw.h → x < raw.w → raw.pix y x ≤ 255) :
    create_qr_code qrR text size = .ok (ensureLight raw) ∧
      (ensureLight raw).h = size ∧ (ensureLight raw).w = size ∧
      127 * (size * size) ≤ sumPix (ensureLight raw) := by
  refine ⟨?_, (ensureLight_h raw).trans hh, (ensureLight_w raw).trans hw, ?_⟩
  · unfold create_qr_code
    rw [if_neg hne, hok]
    rfl
  · have := ensureLight_mean raw hb
    rw [hh, hw] at this
    exact this

/-- Witness for C6: a concrete all-dark 2×2 raster from the encoder is
inverted to an all-white patch of mean 255. -/
theorem c6_witness :
    ("hi" : String) ≠ "" ∧
      (create_qr_code darkRender "hi" 2 = .ok (ensureLight ⟨2, 2, fun _ _ => 0⟩) ∧
        (ensureLight ⟨2, 2, fun _ _ => 0⟩).h = 2 ∧
        (ensureLight ⟨2, 2, fun _ _ => 0⟩).w = 2 ∧
        127 * (2 * 2) ≤ sumPix (ensureLight ⟨2, 2, fun _ _ => 0⟩)) :=
  ⟨by decide,
    c6_qr_light_mean darkRender "hi" 2 ⟨2, 2, fun _ _ => 0⟩ (by decide) rfl rfl rfl
      (fun _ _ _ _ => by norm_num)⟩

/-- C7: `create_qr_code` on empty text returns the deliberate blank
placeholder: an all-255 (white) `size × size` patch, not an error
(lines 45-47). -/
theorem c7_empty_text_blank (qrR : String → Nat → Except String Img) (size : Nat) :
    create_qr_code qrR "" size = .ok (blankImg size) ∧
      (blankImg size).h = size ∧ (blankImg size).w = size ∧
      ∀ y x : Int, (blankImg size).pix y x = 255 :=
  ⟨by unfold create_qr_code; rw [if_pos rfl], rfl, rfl, fun _ _ => rfl⟩

/-- C10: the blit guard of line 288 is stricter than canvas bounds — a
patch whose height or width exceeds `qr_size` is never blitted at all,
even when its target rectangle fits entirely inside the canvas, and no
exception is raised. -/
theorem c10_oversize_patch_never_blitted (sheet patch : Img) (x y : Int)
    (qr_size : Nat)
    (hover : qr_size < patch.h ∨ qr_size < patch.w)
    (hfit : y + (patch.h : Int) ≤ (sheet.h : Int) ∧
      x + (patch.w : Int) ≤ (sheet.w : Int)) :
    placeOne sheet patch x y qr_size = (sheet, false) := by
  unfold placeOne
  rw [if_neg]
  rintro ⟨h1, h2, -⟩
  rcases hover with h | h <;> omega

/-- Witness for C10: a 3×3 patch with `qr_size = 2` fits a 4×4 canvas at
the origin but is skipped. -/
theorem c10_witness :
    ((2 : Nat) < (3 : Nat) ∨ (2 : Nat) < (3 : Nat)) ∧
      ((0 : Int) + ((3 : Nat) : Int) ≤ ((4 : Nat) : Int) ∧
        (0 : Int) + ((3 : Nat) : Int) ≤ ((4 : Nat) : Int)) ∧
      placeOne ⟨4, 4, fun _ _ => 255⟩ ⟨3, 3, fun _ _ => 0⟩ 0 0 2 =
        (⟨4, 4, fun _ _ => 255⟩, false) :=
  ⟨Or.inl (by decide), ⟨by decide, by decide⟩,
    c10_oversize_patch_never_blitted ⟨4, 4, fun _ _ => 255⟩ ⟨3, 3, fun _ _ => 0⟩ 0 0 2
      (Or.inl (by decide)) ⟨by decide, by decide⟩⟩

/-- Counterexample to C1 as stated: `squareCellArgs` satisfies all the
claimed invariants (`qr_size ≤ label_height`, `qr_size ≤ label_width`,
`rows ≥ 1`, `cols ≥ 1`), yet in cell (0,0) the QR-patch rectangle
(x from 50 to 550) and the caption-patch rectangle (x from 300 to 800)
overlap — pixel (300, 50) lies in both — so they are neither disjoint
nor both contained in the 600-wide cell. -/
theorem c1_counterexample :
    squareCellArgs.qr_size ≤ squareCellArgs.label_height ∧
      squareCellArgs.qr_size ≤ squareCellArgs.label_width ∧
      1 ≤ squareCellArgs.rows ∧ 1 ≤ squareCellArgs.cols ∧
      ¬ (RectDisjoint (qrRect squareCellArgs 0 0) (textRect squareCellArgs 0 0) ∧
          RectInside (qrRect squareCellArgs 0 0) (cellRect squareCellArgs 0 0) ∧
          RectInside (textRect squareCellArgs 0 0) (cellRect squareCellArgs 0 0)) := by
  refine ⟨by decide, by decide, by decide, by decide, ?_⟩
  rintro ⟨hd, -, -⟩
  exact hd (300, 50)
    (by simp only [qrRect, Rect.contains, margin, squareCellArgs]; decide)
    (by simp only [textRect, Rect.contains, margin, squareCellArgs]; decide)

/-- C1 amended: in every cell, the QR-patch rectangle and caption-patch
rectangle are disjoint and contained in the cell, provided additionally
that the margin plus the QR side stays within the left half of the cell
(`margin + qr_size ≤ label_width / 2`) and the caption patch fits the
right half (`label_width / 2 + qr_size ≤ label_width`); the claimed
invariants alone do not imply this (see the counterexample). -/
theorem c1_patch_rects_disjoint_contained (args : Args) (row col : Nat)
    (h1 : args.qr_size ≤ args.label_height)
    (h2 : margin args + (args.qr_size : Int) ≤ ((args.label_width / 2 : Nat) : Int))
    (h3 : args.label_width / 2 + args.qr_size ≤ args.label_width) :
    RectDisjoint (qrRect args row col) (textRect args row col) ∧
      RectInside (qrRect args row col) (cellRect args row col) ∧
      RectInside (textRect args row col) (cellRect args row col) := by
  simp only [margin] at h2
  refine ⟨?_, ?_, ?_⟩
  · intro p hp hq
    simp only [qrRect, textRect, Rect.contains, margin] at hp hq
    omega
  · intro p hp
    simp only [qrRect, cellRect, Rect.contains, margin] at hp ⊢
    omega
  · intro p hp
    simp only [textRect, cellRect, Rect.contains, margin] at hp ⊢
    omega

/-- Witness for C1 amended: the script's default layout (1400×600 cells,
500-pixel QR) satisfies the strengthened hypotheses, and the theorem
yields disjointness and containment in cell (0, 0). -/
theorem c1_witness :
    defaultArgs.qr_size ≤ defaultArgs.label_height ∧
      margin defaultArgs + (defaultArgs.qr_size : Int) ≤
        ((defaultArgs.label_width / 2 : Nat) : Int) ∧
      defaultArgs.label_width / 2 + defaultArgs.qr_size ≤ defaultArgs.label_width ∧
      (RectDisjoint (qrRect defaultArgs 0 0) (textRect defaultArgs 0 0) ∧
        RectInside (qrRect defaultArgs 0 0) (cellRect defaultArgs 0 0) ∧
        RectInside (textRect defaultArgs 0 0) (cellRect defaultArgs 0 0)) :=
  ⟨by decide, by decide, by decide,
    c1_patch_rects_disjoint_contained defaultArgs 0 0 (by decide) (by decide) (by decide)⟩

/-! Lemmas describing the traversal order and the record counter of the
compositing loops. -/

lemma cellIndices_eq (rows cols : Nat) :
    cellIndices rows cols =
      (List.range (rows * cols)).map fun j => (j / cols, j % cols) := by
  rcases Nat.eq_zero_or_pos cols with hc | hc
  · subst hc
    simp [cellIndices]
  · induction rows with
    | zero => simp [cellIndices]
    | succ n ih =>
      simp only [cellIndices] at ih ⊢
      rw [List.range_succ, List.flatMap_append, ih, Nat.succ_mul, List.range_add,
        List.map_append]
      congr 1
      rw [List.flatMap_cons, List.flatMap_nil, List.append_nil, List.map_map]
      refine (List.map_congr_left ?_).symm
      intro c hcmem
      have hclt : c < cols := List.mem_range.mp hcmem
      have h1 : (n * cols + c) / cols = n := by
        rw [Nat.mul_comm, Nat.mul_add_div hc, Nat.div_eq_of_lt hclt, Nat.add_zero]
      have h2 : (n * cols + c) % cols = c := by
        rw [Nat.mul_comm, Nat.mul_add_mod, Nat.mod_eq_of_lt hclt]
      simp only [Function.comp_apply]
      rw [h1, h2]

lemma cellIndices_length (rows cols : Nat) :
    (cellIndices rows cols).length = rows * cols := by
  rw [cellIndices_eq, List.length_map, List.length_range]

lemma zipWith_range'_map_range {α β : Type} (f : Nat → α → β) (h : Nat → α) :
    ∀ (p m a : Nat),
      List.zipWith f (List.range' a m) ((List.range p).map h) =
        (List.range (min m p)).map fun j => f (a + j) (h j)
  | 0, m, a => by simp
  | p + 1, 0, a => by simp
  | p + 1, m + 1, a => by
    rw [List.range'_succ, List.range_succ_eq_map, List.map_cons,
      List.zipWith_cons_cons, List.map_map,
      zipWith_range'_map_range f (h ∘ Nat.succ) p m (a + 1),
      Nat.succ_min_succ, List.range_succ_eq_map, List.map_cons, List.map_map]
    congr 1
    apply List.map_congr_left
    intro j hj
    simp only [Function.comp_apply, Nat.succ_eq_add_one]
    rw [Nat.add_assoc, Nat.add_comm 1 j]

lemma getD_mem_or (data : List (String × String)) (lc : Nat)
    (h : lc < data.length) : data.getD lc ("", "") ∈ data := by
  rw [List.getD_eq_getElem?_getD, List.getElem?_eq_getElem h]
  exact List.getElem_mem h

lemma processCells_spec (qrR : String → Nat → Except String Img)
    (draw : String → String → Nat → Int → Int → Nat)
    (args : Args) (data : List (String × String))
    (hOk : rendersOk qrR args data) :
    ∀ (cells : List (Nat × Nat)) (sheet : Img) (lc : Nat), lc ≤ data.length →
      ∃ sheet2, processCells qrR draw args data sheet lc cells =
        .ok (sheet2, min data.length (lc + cells.length),
          List.zipWith (fun i rc => (i, rc.1, rc.2))
            (List.range' lc (data.length - lc)) cells)
  | [], sheet, lc, hlc => by
    refine ⟨sheet, ?_⟩
    simp only [processCells, List.zipWith_nil_right, List.length_nil, Nat.add_zero]
    rw [Nat.min_eq_right hlc]
  | rc :: rest, sheet, lc, hlc => by
    by_cases hlt : lc < data.length
    · have hok2 := hOk _ (getD_mem_or data lc hlt)
      cases himg : create_qr_code qrR (data.getD lc ("", "")).1 args.qr_size with
      | error e => rw [himg] at hok2; simp [isOkB] at hok2
      | ok qr_img =>
        obtain ⟨sheet2, hrec⟩ := processCells_spec qrR draw args data hOk rest
          (placeImages sheet qr_img
            (create_text_image draw (data.getD lc ("", "")).1
              (data.getD lc ("", "")).2 args.qr_size)
            ((rc.2 : Int) * (args.label_width : Int) + margin args)
            ((rc.1 : Int) * (args.label_height : Int) + margin args)
            ((rc.2 : Int) * (args.label_width : Int) + ((args.label_width / 2 : Nat) : Int))
            ((rc.1 : Int) * (args.label_height : Int) + margin args)
            args.qr_size)
          (lc + 1) hlt
        refine ⟨sheet2, ?_⟩
        simp only [processCells]
        rw [fillCell_of_ok qrR draw args data sheet lc rc.1 rc.2 qr_img hlt himg]
        simp only [hrec]
        have hsub : data.length - lc = (data.length - (lc + 1)) + 1 := by omega
        rw [hsub, List.range'_succ, List.zipWith_cons_cons]
        simp only [Except.ok.injEq, Prod.mk.injEq, Option.toList_some,
          List.singleton_append, List.length_cons]
        exact ⟨trivial, by omega, trivial⟩
    · have hend : lc = data.length := by omega
      obtain ⟨sheet2, hrec⟩ := processCells_spec qrR draw args data hOk rest sheet lc hlc
      refine ⟨sheet2, ?_⟩
      simp only [processCells]
      rw [fillCell_of_exhausted qrR draw args data sheet lc rc.1 rc.2 hlt]
      simp only [hrec]
      have h0 : data.length - lc = 0 := by omega
      simp only [h0, List.range'_zero, List.zipWith_nil_left, Option.toList_none,
        List.nil_append, List.length_cons, Except.ok.injEq, Prod.mk.injEq]
      exact ⟨trivial, by omega, trivial⟩

lemma tagged_cell_placements (args : Args) (data : List (String × String)) (s : Nat)
    (hrows : 1 ≤ args.rows) (hcols : 1 ≤ args.cols) :
    (List.zipWith (fun i rc => (i, rc.1, rc.2))
        (List.range' (min data.length (s * (args.rows * args.cols)))
          (data.length - min data.length (s * (args.rows * args.cols))))
        (cellIndices args.rows args.cols)).map
      (fun p => (p.1, s, p.2.1, p.2.2)) =
    (List.range' (min data.length (s * (args.rows * args.cols)))
        (min data.length ((s + 1) * (args.rows * args.cols)) -
          min data.length (s * (args.rows * args.cols)))).map
      (rowMajorPlacement (args.rows * args.cols) args.cols) := by
  have hper : 0 < args.rows * args.cols := Nat.mul_pos hrows hcols
  have hexp : (s + 1) * (args.rows * args.cols) =
      s * (args.rows * args.cols) + args.rows * args.cols := by ring
  rw [cellIndices_eq, zipWith_range'_map_range, List.map_map,
    List.range'_eq_map_range, List.map_map]
  have hk : min (data.length - min data.length (s * (args.rows * args.cols)))
      (args.rows * args.cols) =
      min data.length ((s + 1) * (args.rows * args.cols)) -
        min data.length (s * (args.rows * args.cols)) := by
    omega
  rw [hk]
  apply List.map_congr_left
  intro j hj
  have hjK := List.mem_range.mp hj
  have hlc : min data.length (s * (args.rows * args.cols)) =
      s * (args.rows * args.cols) := by omega
  have hjper : j < args.rows * args.cols := by omega
  have h1 : (s * (args.rows * args.cols) + j) / (args.rows * args.cols) = s := by
    rw [Nat.mul_comm s (args.rows * args.cols), Nat.mul_add_div hper,
      Nat.div_eq_of_lt hjper, Nat.add_zero]
  have h2 : (s * (args.rows * args.cols) + j) % (args.rows * args.cols) = j := by
    rw [Nat.mul_comm s (args.rows * args.cols), Nat.mul_add_mod,
      Nat.mod_eq_of_lt hjper]
  simp only [Function.comp_apply]
  unfold rowMajorPlacement
  rw [hlc, h1, h2]

lemma sheetsLoop_spec (qrR : String → Nat → Except String Img)
    (draw : String → String → Nat → Int → Int → Nat)
    (args : Args) (data : List (String × String))
    (hOk : rendersOk qrR args data)
    (hrows : 1 ≤ args.rows) (hcols : 1 ≤ args.cols) :
    ∀ (n s : Nat),
      (sheetsLoop qrR draw args data n s
          (min data.length (s * (args.rows * args.cols)))).error = none ∧
      (sheetsLoop qrR draw args data n s
          (min data.length (s * (args.rows * args.cols)))).sheets.length = n ∧
      (sheetsLoop qrR draw args data n s
          (min data.length (s * (args.rows * args.cols)))).placements =
        (List.range' (min data.length (s * (args.rows * args.cols)))
            (min data.length ((s + n) * (args.rows * args.cols)) -
              min data.length (s * (args.rows * args.cols)))).map
          (rowMajorPlacement (args.rows * args.cols) args.cols)
  | 0, s => by
    simp [sheetsLoop]
  | n + 1, s => by
    have hper : 0 < args.rows * args.cols := Nat.mul_pos hrows hcols
    have hexp1 : (s + 1) * (args.rows * args.cols) =
        s * (args.rows * args.cols) + args.rows * args.cols := by ring
    have hexp2 : (s + 1 + n) * (args.rows * args.cols) =
        s * (args.rows * args.cols) + args.rows * args.cols +
          n * (args.rows * args.cols) := by ring
    have hexp3 : (s + (n + 1)) * (args.rows * args.cols) =
        s * (args.rows * args.cols) + args.rows * args.cols +
          n * (args.rows * args.cols) := by ring
    have hlc : min data.length (s * (args.rows * args.cols)) ≤ data.length :=
      Nat.min_le_left _ _
    obtain ⟨sheet2, hpc⟩ := processCells_spec qrR draw args data hOk
      (cellIndices args.rows args.cols) (blankSheet args)
      (min data.length (s * (args.rows * args.cols))) hlc
    have hnext : min data.length
        (min data.length (s * (args.rows * args.cols)) +
          (cellIndices args.rows args.cols).length) =
        min data.length ((s + 1) * (args.rows * args.cols)) := by
      rw [cellIndices_length]
      omega
    obtain ⟨hIH1, hIH2, hIH3⟩ :=
      sheetsLoop_spec qrR draw args data hOk hrows hcols n (s + 1)
    refine ⟨?_, ?_, ?_⟩
    · simp only [sheetsLoop, hpc, hnext]
      exact hIH1
    · simp only [sheetsLoop, hpc, hnext, List.length_cons]
      rw [hIH2]
    · simp only [sheetsLoop, hpc, hnext]
      rw [hIH3, tagged_cell_placements args data s hrows hcols, ← List.map_append]
      congr 1
      have happ := List.range'_append
        (min data.length (s * (args.rows * args.cols)))
        (min data.length ((s + 1) * (args.rows * args.cols)) -
          min data.length (s * (args.rows * args.cols)))
        (min data.length ((s + 1 + n) * (args.rows * args.cols)) -
          min data.length ((s + 1) * (args.rows * args.cols))) 1
      simp only [Nat.one_mul] at happ
      rw [show min data.length (s * (args.rows * args.cols)) +
          (min data.length ((s + 1) * (args.rows * args.cols)) -
            min data.length (s * (args.rows * args.cols))) =
          min data.length ((s + 1) * (args.rows * args.cols)) from by omega] at happ
      rw [happ]
      congr 1
      omega

/-! Outcome of a whole run of `generate_label_sheets` when every record's
QR text is encodable. -/

lemma generate_spec (qrR : String → Nat → Except String Img)
    (draw : String → String → Nat → Int → Int → Nat)
    (data : List (String × String)) (args : Args)
    (hrows : 1 ≤ args.rows) (hcols : 1 ≤ args.cols)
    (hOk : rendersOk qrR args data) :
    (generate_label_sheets qrR draw data args).error = none ∧
    (generate_label_sheets qrR draw data args).sheets.length =
      num_sheets data.length (args.rows * args.cols) ∧
    (generate_label_sheets qrR draw data args).placements =
      (List.range data.length).map
        (rowMajorPlacement (args.rows * args.cols) args.cols) := by
  have hper : 0 < args.rows * args.cols := Nat.mul_pos hrows hcols
  have hper0 : ¬ (args.rows * args.cols = 0) := by omega
  obtain ⟨h1, h2, h3⟩ := sheetsLoop_spec qrR draw args data hOk hrows hcols
    (num_sheets data.length (args.rows * args.cols)) 0
  rw [show min data.length (0 * (args.rows * args.cols)) = 0 from by simp] at h1 h2 h3
  have hcov : data.length ≤
      num_sheets data.length (args.rows * args.cols) * (args.rows * args.cols) := by
    unfold num_sheets
    have hdm := Nat.div_add_mod (data.length + (args.rows * args.cols) - 1)
      (args.rows * args.cols)
    have hmod := Nat.mod_lt (data.length + (args.rows * args.cols) - 1) hper
    have hcomm : (data.length + (args.rows * args.cols) - 1) / (args.rows * args.cols) *
        (args.rows * args.cols) =
        (args.rows * args.cols) *
          ((data.length + (args.rows * args.cols) - 1) / (args.rows * args.cols)) :=
      Nat.mul_comm _ _
    omega
  rw [show min data.length
      ((0 + num_sheets data.length (args.rows * args.cols)) * (args.rows * args.cols)) =
      data.length from by rw [Nat.zero_add]; omega] at h3
  rw [Nat.sub_zero, ← List.range_eq_range'] at h3
  refine ⟨?_, ?_, ?_⟩ <;> simp only [generate_label_sheets] <;> rw [if_neg hper0]
  · exact h1
  · exact h2
  · exact h3

lemma num_sheets_eq_ceil (n per : Nat) (hper : 1 ≤ per) :
    (num_sheets n per : Int) = ⌈(n : ℚ) / (per : ℚ)⌉ := by
  have hdm := Nat.div_add_mod (n + per - 1) per
  have hmod := Nat.mod_lt (n + per - 1) (show 0 < per by omega)
  have h3 : n ≤ per * ((n + per - 1) / per) := by omega
  have h4 : per * ((n + per - 1) / per) < n + per := by omega
  have hperQ : (0 : ℚ) < (per : ℚ) := by exact_mod_cast show 0 < per by omega
  have h3Q : (n : ℚ) ≤ (per : ℚ) * (((n + per - 1) / per : Nat) : ℚ) := by
    exact_mod_cast h3
  have h4Q : (per : ℚ) * (((n + per - 1) / per : Nat) : ℚ) < (n : ℚ) + (per : ℚ) := by
    exact_mod_cast h4
  symm
  rw [Int.ceil_eq_iff]
  constructor
  · rw [lt_div_iff₀ hperQ]
    unfold num_sheets
    rw [Int.cast_natCast]
    nlinarith [h4Q]
  · rw [div_le_iff₀ hperQ]
    unfold num_sheets
    rw [Int.cast_natCast]
    nlinarith [h3Q]

/-! Canvas dimensions and out-of-canvas pixels of every produced sheet. -/

lemma sheetsLoop_sheets_inv (qrR : String → Nat → Except String Img)
    (draw : String → String → Nat → Int → Int → Nat)
    (args : Args) (data : List (String × String)) :
    ∀ (n s lc : Nat) (sh : Img),
      sh ∈ (sheetsLoop qrR draw args data n s lc).sheets →
      sh.h = args.rows * args.label_height ∧
        sh.w = args.cols * args.label_width ∧ outsideWhite sh
  | 0, s, lc, sh, hmem => by simp [sheetsLoop] at hmem
  | n + 1, s, lc, sh, hmem => by
    simp only [sheetsLoop] at hmem
    cases hpc : processCells qrR draw args data (blankSheet args) lc
        (cellIndices args.rows args.cols) with
    | error e => simp [hpc] at hmem
    | ok out =>
      obtain ⟨sheet2, lc2, pls⟩ := out
      simp only [hpc] at hmem
      rcases List.mem_cons.mp hmem with h | h
      · subst h
        obtain ⟨d1, d2, d3⟩ := processCells_ok_inv qrR draw args data
          (cellIndices args.rows args.cols) (blankSheet args) lc _ _ _ hpc
        exact ⟨d1.trans rfl, d2.trans rfl, d3 fun _ _ _ => rfl⟩
      · exact sheetsLoop_sheets_inv qrR draw args data n (s + 1) lc2 sh h

lemma generate_sheets_inv (qrR : String → Nat → Except String Img)
    (draw : String → String → Nat → Int → Int → Nat)
    (data : List (String × String)) (args : Args) (sh : Img)
    (hmem : sh ∈ (generate_label_sheets qrR draw data args).sheets) :
    sh.h = args.rows * args.label_height ∧
      sh.w = args.cols * args.label_width ∧ outsideWhite sh := by
  simp only [generate_label_sheets] at hmem
  by_cases hper : args.rows * args.cols = 0
  · rw [if_pos hper] at hmem
    simp at hmem
  · rw [if_neg hper] at hmem
    exact sheetsLoop_sheets_inv qrR draw args data _ _ _ sh hmem

lemma getD_prop (P : Img → Prop) (l : List Img) (d : Img) (i : Nat)
    (hall : ∀ sh ∈ l, P sh) (hd : P d) : P (l.getD i d) := by
  rw [List.getD_eq_getElem?_getD]
  cases hget : l[i]? with
  | none => exact hd
  | some v =>
    obtain ⟨hlt, rfl⟩ := List.getElem?_eq_some_iff.mp hget
    exact hall _ (List.getElem_mem hlt)

/-- Counterexample to C2 as stated: the `try` of line 285 only wraps the
blits; `create_qr_code` at line 269 is outside it, so a record whose text
the encoder cannot encode raises out of `generate_label_sheets` and
aborts the run.  With a 1×1 grid and two records whose first is
unencodable, two sheets are due but zero sheets are produced and the
exception propagates: the subsequent cell and sheet are not produced. -/
theorem c2_counterexample :
    (generate_label_sheets overflowRender whiteDraw twoRecordsFirstBad
        tinyArgs).sheets.length = 0 ∧
    (generate_label_sheets overflowRender whiteDraw twoRecordsFirstBad
        tinyArgs).error = some "qrcode.exceptions.DataOverflowError" ∧
    num_sheets twoRecordsFirstBad.length (tinyArgs.rows * tinyArgs.cols) = 2 := by
  refine ⟨rfl, rfl, rfl⟩

/-- C2 amended: a failure while placing a record's patches (the blit
step) is caught by the `except` of line 295 and never aborts the sheet or
the run — whenever every record's QR text is encodable, the run finishes
with no uncaught exception and the full expected number of sheets,
whatever the layout geometry does to the blits.  A QR rendering failure,
by contrast, propagates and aborts the run (the counterexample). -/
theorem c2_render_ok_no_abort (qrR : String → Nat → Except String Img)
    (draw : String → String → Nat → Int → Int → Nat)
    (data : List (String × String)) (args : Args)
    (hrows : 1 ≤ args.rows) (hcols : 1 ≤ args.cols)
    (hOk : rendersOk qrR args data) :
    (generate_label_sheets qrR draw data args).error = none ∧
    (generate_label_sheets qrR draw data args).sheets.length =
      num_sheets data.length (args.rows * args.cols) :=
  ⟨(generate_spec qrR draw data args hrows hcols hOk).1,
    (generate_spec qrR draw data args hrows hcols hOk).2.1⟩

/-- Witness for C2 amended: five encodable records on a 2×2 grid give
two sheets and no uncaught exception. -/
theorem c2_witness :
    1 ≤ smallArgs.rows ∧ 1 ≤ smallArgs.cols ∧
      rendersOk allOkRender smallArgs fiveRecords ∧
      ((generate_label_sheets allOkRender whiteDraw fiveRecords smallArgs).error =
          none ∧
        (generate_label_sheets allOkRender whiteDraw fiveRecords
            smallArgs).sheets.length =
          num_sheets fiveRecords.length (smallArgs.rows * smallArgs.cols)) :=
  ⟨by decide, by decide, by unfold rendersOk; decide,
    c2_render_ok_no_abort allOkRender whiteDraw fiveRecords smallArgs
      (by decide) (by decide) (by unfold rendersOk; decide)⟩

/-- C3: with every record encodable, generation produces exactly
`ceil(N / (rows * cols))` sheets — the integer formula of line 244 equals
the rational ceiling — and zero records produce zero sheets (a no-op, not
an error). -/
theorem c3_sheet_count (qrR : String → Nat → Except String Img)
    (draw : String → String → Nat → Int → Int → Nat)
    (data : List (String × String)) (args : Args)
    (hrows : 1 ≤ args.rows) (hcols : 1 ≤ args.cols)
    (hOk : rendersOk qrR args data) :
    (generate_label_sheets qrR draw data args).sheets.length =
      num_sheets data.length (args.rows * args.cols) ∧
    (num_sheets data.length (args.rows * args.cols) : Int) =
      ⌈(data.length : ℚ) / ((args.rows * args.cols : Nat) : ℚ)⌉ ∧
    (data = [] → (generate_label_sheets qrR draw data args).sheets = []) := by
  have hg := generate_spec qrR draw data args hrows hcols hOk
  refine ⟨hg.2.1, num_sheets_eq_ceil data.length (args.rows * args.cols)
    (Nat.mul_pos hrows hcols), ?_⟩
  intro hdata
  apply List.length_eq_zero.mp
  rw [hg.2.1, hdata]
  unfold num_sheets
  simp only [List.length_nil, Nat.zero_add]
  exact Nat.div_eq_of_lt (by have := Nat.mul_pos hrows hcols; omega)

/-- Witness for C3: five records on a 2×2 grid give `ceil(5/4) = 2`
sheets. -/
theorem c3_witness :
    1 ≤ smallArgs.rows ∧ 1 ≤ smallArgs.cols ∧
      rendersOk allOkRender smallArgs fiveRecords ∧
      ((generate_label_sheets allOkRender whiteDraw fiveRecords
            smallArgs).sheets.length =
          num_sheets fiveRecords.length (smallArgs.rows * smallArgs.cols) ∧
        (num_sheets fiveRecords.length (smallArgs.rows * smallArgs.cols) : Int) =
          ⌈(fiveRecords.length : ℚ) / ((smallArgs.rows * smallArgs.cols : Nat) : ℚ)⌉ ∧
        (fiveRecords = [] →
          (generate_label_sheets allOkRender whiteDraw fiveRecords smallArgs).sheets =
            [])) :=
  ⟨by decide, by decide, by unfold rendersOk; decide,
    c3_sheet_count allOkRender whiteDraw fiveRecords smallArgs
      (by decide) (by decide) (by unfold rendersOk; decide)⟩

/-- C4: with every record encodable, the trace of record-to-cell
assignments is exactly the row-major mapping in input order: the record
at global index `i` is fetched for sheet `i div per`, grid cell
`((i mod per) div cols, (i mod per) mod cols)` with `per = rows * cols`,
and every index in `[0, N)` occurs exactly once, in order — no record is
skipped or duplicated. -/
theorem c4_row_major_placement (qrR : String → Nat → Except String Img)
    (draw : String → String → Nat → Int → Int → Nat)
    (data : List (String × String)) (args : Args)
    (hrows : 1 ≤ args.rows) (hcols : 1 ≤ args.cols)
    (hOk : rendersOk qrR args data) :
    (generate_label_sheets qrR draw data args).placements =
      (List.range data.length).map
        (rowMajorPlacement (args.rows * args.cols) args.cols) :=
  (generate_spec qrR draw data args hrows hcols hOk).2.2

/-- Witness for C4: five records on a 2×2 grid land at
(0,0,0,0), (1,0,0,1), (2,0,1,0), (3,0,1,1), (4,1,0,0). -/
theorem c4_witness :
    1 ≤ smallArgs.rows ∧ 1 ≤ smallArgs.cols ∧
      rendersOk allOkRender smallArgs fiveRecords ∧
      (generate_label_sheets allOkRender whiteDraw fiveRecords smallArgs).placements =
        (List.range fiveRecords.length).map
          (rowMajorPlacement (smallArgs.rows * smallArgs.cols) smallArgs.cols) :=
  ⟨by decide, by decide, by unfold rendersOk; decide,
    c4_row_major_placement allOkRender whiteDraw fiveRecords smallArgs
      (by decide) (by decide) (by unfold rendersOk; decide)⟩

/-- C5: compositing never writes any pixel outside the sheet canvas,
regardless of patch sizes or layout configuration: every produced sheet
(and the blank default) still has the background value 255 at every
coordinate outside the `(rows·label_height) × (cols·label_width)` canvas
rectangle.  An in-code blit whose target rectangle would exceed the
canvas is skipped by the guard of lines 288/293; a blit at a negative
origin raises inside the `try` and is caught, also writing nothing. -/
theorem c5_no_out_of_canvas_writes (qrR : String → Nat → Except String Img)
    (draw : String → String → Nat → Int → Int → Nat)
    (data : List (String × String)) (args : Args) (i : Nat) (y x : Int)
    (hout : y < 0 ∨ ((args.rows * args.label_height : Nat) : Int) ≤ y ∨ x < 0 ∨
      ((args.cols * args.label_width : Nat) : Int) ≤ x) :
    ((generate_label_sheets qrR draw data args).sheets.getD i
      (blankSheet args)).pix y x = 255 := by
  obtain ⟨d1, d2, d3⟩ := getD_prop
    (fun sh => sh.h = args.rows * args.label_height ∧
      sh.w = args.cols * args.label_width ∧ outsideWhite sh)
    (generate_label_sheets qrR draw data args).sheets (blankSheet args) i
    (fun sh hm => generate_sheets_inv qrR draw data args sh hm)
    ⟨rfl, rfl, fun _ _ _ => rfl⟩
  apply d3
  rw [d1, d2]
  exact hout

/-- Witness for C5: the first sheet of a concrete run is white at the
out-of-canvas coordinate (-1, 0). -/
theorem c5_witness :
    ((generate_label_sheets allOkRender whiteDraw fiveRecords smallArgs).sheets.getD 0
      (blankSheet smallArgs)).pix (-1) 0 = 255 :=
  c5_no_out_of_canvas_writes allOkRender whiteDraw fiveRecords smallArgs 0 (-1) 0
    (Or.inl (by decide))

/-- Counterexample to C8 as stated: on a missing input file the script
prints a diagnostic and `main` returns normally — exit status 0, not a
non-zero-equivalent failure signal (`read_csv_data` swallows the
exception and returns `[]`, and `main` treats that exactly like an empty
table, lines 234-236 and 315-317). -/
theorem c8_counterexample :
    (main allOkRender whiteDraw missingFileSrc defaultArgs "label"
        "description").exitFailure = false ∧
    (main allOkRender whiteDraw missingFileSrc defaultArgs "label"
        "description").sheets = [] ∧
    (main allOkRender whiteDraw missingFileSrc defaultArgs "label"
        "description").log ≠ [] :=
  ⟨rfl, rfl, by decide⟩

/-- C8 amended: if the input table is missing/unreadable or the label
column is absent from its header, the run produces no sheet and prints a
human-readable diagnostic, but terminates cleanly (exit status 0), not
with a non-zero-equivalent failure signal — the code cannot distinguish
these failures from an empty table. -/
theorem c8_failure_clean_exit_no_sheets (qrR : String → Nat → Except String Img)
    (draw : String → String → Nat → Int → Int → Nat)
    (args : Args) (src : Except String CSVTable) (label_col desc_col : String)
    (hbad : (∃ e, src = .error e) ∨
      ∃ t, src = .ok t ∧ label_col ∉ t.fieldnames) :
    (main qrR draw src args label_col desc_col).sheets = [] ∧
    (main qrR draw src args label_col desc_col).exitFailure = false ∧
    "No data found or error in CSV file. Exiting." ∈
      (main qrR draw src args label_col desc_col).log := by
  have hread : (read_csv_data src label_col desc_col).1 = [] := by
    rcases hbad with ⟨e, rfl⟩ | ⟨t, rfl, hcol⟩
    · rfl
    · simp only [read_csv_data]
      rw [if_neg hcol]
  simp only [main]
  rw [if_pos hread]
  exact ⟨rfl, rfl, List.mem_append_right _ (List.mem_singleton.mpr rfl)⟩

/-- Witness for C8 amended: a concrete missing input file yields no
sheets, a clean exit and the diagnostic message. -/
theorem c8_witness :
    ((∃ e, missingFileSrc = .error e) ∨
      ∃ t, missingFileSrc = .ok t ∧ "label" ∉ t.fieldnames) ∧
      ((main allOkRender whiteDraw missingFileSrc defaultArgs "label"
          "description").sheets = [] ∧
        (main allOkRender whiteDraw missingFileSrc defaultArgs "label"
          "description").exitFailure = false ∧
        "No data found or error in CSV file. Exiting." ∈
          (main allOkRender whiteDraw missingFileSrc defaultArgs "label"
            "description").log) :=
  ⟨Or.inl ⟨_, rfl⟩,
    c8_failure_clean_exit_no_sheets allOkRender whiteDraw defaultArgs missingFileSrc
      "label" "description" (Or.inl ⟨_, rfl⟩)⟩

/-- C9: every sheet produced by a run (and the blank default) is a
single-channel canvas of dimensions exactly `rows·label_height` by
`cols·label_width`, and the canvas each sheet starts from is initialized
everywhere to the white background value 255 before any patch is
blitted. -/
theorem c9_sheet_dims_white_init (qrR : String → Nat → Except String Img)
    (draw : String → String → Nat → Int → Int → Nat)
    (data : List (String × String)) (args : Args) (i : Nat) :
    ((generate_label_sheets qrR draw data args).sheets.getD i
        (blankSheet args)).h = args.rows * args.label_height ∧
    ((generate_label_sheets qrR draw data args).sheets.getD i
        (blankSheet args)).w = args.cols * args.label_width ∧
    ∀ y x : Int, (blankSheet args).pix y x = 255 := by
  obtain ⟨d1, d2, -⟩ := getD_prop
    (fun sh => sh.h = args.rows * args.label_height ∧
      sh.w = args.cols * args.label_width ∧ outsideWhite sh)
    (generate_label_sheets qrR draw data args).sheets (blankSheet args) i
    (fun sh hm => generate_sheets_inv qrR draw data args sh hm)
    ⟨rfl, rfl, fun _ _ _ => rfl⟩
  exact ⟨d1, d2, fun _ _ => rfl⟩

end QRCoding
